import Mathlib

/-
  Verification of the Elo rating library (CarlColglazier/rust-elo).

  The source is a single-file Rust library.  Its `f32` arithmetic is modelled
  over the real numbers `ℝ`, the standard shallow embedding for floating-point
  code; the `usize` K-factor is modelled as `ℕ`.  The `Elo` trait becomes a
  structure of operations over an arbitrary participant type, and in-place
  mutation of the two participants becomes returning the updated pair.
-/

noncomputable section

namespace RustElo

/-- The `Elo` trait from the source: a participant type exposing
`get_rating` (read the current rating) and `change_rating` (apply a signed
rating delta). -/
structure Elo (α : Type) where
  get_rating : α → ℝ
  change_rating : α → ℝ → α

/-- The free function `expected_rating` from the source:
`1.0f32 / (1.0f32 + 10f32.powf((player_two.get_rating() - player_one.get_rating()) / 400f32))`. -/
def expected_rating {α : Type} (E : Elo α) (player_one player_two : α) : ℝ :=
  1 / (1 + (10 : ℝ) ^ ((E.get_rating player_two - E.get_rating player_one) / 400))

/-- The `EloRanking` struct from the source: its single field is the K-factor,
a `usize`, modelled as `ℕ`. -/
structure EloRanking where
  k_factor : ℕ

/-- Constructor `EloRanking::new(k)`. -/
def EloRanking.new (k : ℕ) : EloRanking :=
  { k_factor := k }

/-- Accessor `EloRanking::get_k_factor`. -/
def EloRanking.get_k_factor (s : EloRanking) : ℕ :=
  s.k_factor

/-- Setter `EloRanking::set_k_factor`. -/
def EloRanking.set_k_factor (s : EloRanking) (k : ℕ) : EloRanking :=
  { s with k_factor := k }

/-- Core operation `EloRanking::calculate_rating`: let
`change = self.k_factor as f32 * (score - expected_rating(player_one, player_two))`;
then `player_one.change_rating(change)` and `player_two.change_rating(-change)`.
The two in-place mutations are modelled by returning the updated pair. -/
def EloRanking.calculate_rating {α : Type} (s : EloRanking) (E : Elo α)
    (player_one player_two : α) (score : ℝ) : α × α :=
  let change : ℝ :=
    (s.k_factor : ℝ) * (score - expected_rating E player_one player_two)
  (E.change_rating player_one change, E.change_rating player_two (-change))

/-- Operation `EloRanking::win(winner, loser)`: `calculate_rating(winner, loser, 1.0)`. -/
def EloRanking.win {α : Type} (s : EloRanking) (E : Elo α)
    (winner loser : α) : α × α :=
  s.calculate_rating E winner loser 1

/-- Operation `EloRanking::tie(player_one, player_two)`: `calculate_rating(player_one, player_two, 0.5)`. -/
def EloRanking.tie {α : Type} (s : EloRanking) (E : Elo α)
    (player_one player_two : α) : α × α :=
  s.calculate_rating E player_one player_two 0.5

/-- Operation `EloRanking::loss(loser, winner)`: delegates to `self.win(winner, loser)`.
The returned pair is the updated `(loser, winner)`, i.e. the mutated values of
the arguments of `loss` in their own order. -/
def EloRanking.loss {α : Type} (s : EloRanking) (E : Elo α)
    (loser winner : α) : α × α :=
  let r := s.win E winner loser
  (r.2, r.1)

/-- The `RatingObject` participant type from the test module: it stores a bare
`f32` rating, `get_rating` returns it and `change_rating` adds the delta. -/
def RatingObject : Elo ℝ :=
  { get_rating := fun r => r, change_rating := fun r d => r + d }

/-- The expected-score formula exactly as the spec words it:
`E_a = 1 / (1 + 10^((Rb - Ra) / 400))` for first-argument rating `Ra` and
second-argument rating `Rb`. -/
def expected_score_spec (Ra Rb : ℝ) : ℝ :=
  1 / (1 + (10 : ℝ) ^ ((Rb - Ra) / 400))

/- Shared helper lemmas. -/

lemma rpow_ten_pos (t : ℝ) : 0 < (10 : ℝ) ^ t :=
  Real.rpow_pos_of_pos (by norm_num) t

lemma expected_rating_pos {α : Type} (E : Elo α) (p q : α) :
    0 < expected_rating E p q := by
  unfold expected_rating
  have h := rpow_ten_pos ((E.get_rating q - E.get_rating p) / 400)
  positivity

lemma expected_rating_lt_one {α : Type} (E : Elo α) (p q : α) :
    expected_rating E p q < 1 := by
  unfold expected_rating
  have h := rpow_ten_pos ((E.get_rating q - E.get_rating p) / 400)
  rw [div_lt_one (by linarith)]
  linarith

lemma expected_rating_self (r : ℝ) :
    expected_rating RatingObject r r = 0.5 := by
  unfold expected_rating RatingObject
  norm_num

/- Claim theorems. -/

/-- Claim C1: zero-sum.  For every K-factor and every pair of ratings, each
outcome operation (win, tie, loss) applies two deltas that are exact
negations of each other; structurally, the second delta is the negation of
the one computed value, never computed independently. -/
theorem zero_sum_claim :
    (∀ (k : ℕ) (r1 r2 : ℝ),
      (((EloRanking.new k).win RatingObject r1 r2).1 - r1
          = -((((EloRanking.new k).win RatingObject r1 r2).2) - r2))
      ∧ (((EloRanking.new k).tie RatingObject r1 r2).1 - r1
          = -((((EloRanking.new k).tie RatingObject r1 r2).2) - r2))
      ∧ (((EloRanking.new k).loss RatingObject r1 r2).1 - r1
          = -((((EloRanking.new k).loss RatingObject r1 r2).2) - r2)))
    ∧ (∀ (α : Type) (E : Elo α) (s : EloRanking) (p q : α) (score : ℝ),
        ∃ c : ℝ, s.calculate_rating E p q score
          = (E.change_rating p c, E.change_rating q (-c))) := by
  constructor
  · intro k r1 r2
    refine ⟨?_, ?_, ?_⟩ <;>
      simp only [EloRanking.new, EloRanking.win, EloRanking.tie, EloRanking.loss,
        EloRanking.calculate_rating, RatingObject] <;> ring
  · intro α E s p q score
    exact ⟨(s.k_factor : ℝ) * (score - expected_rating E p q), rfl⟩

/-- Claim C2: update rule.  Each outcome operation computes
`change = (k : ℝ) * (score - expected)`, with `score = 1` for win and
`score = 0.5` for tie, and applies `change` to the first participant and
`-change` to the second, through `change_rating`. -/
theorem update_rule_claim :
    ∀ (α : Type) (E : Elo α) (s : EloRanking) (p q : α),
      s.win E p q
        = (E.change_rating p ((s.k_factor : ℝ) * (1 - expected_rating E p q)),
           E.change_rating q (-((s.k_factor : ℝ) * (1 - expected_rating E p q))))
      ∧ s.tie E p q
        = (E.change_rating p ((s.k_factor : ℝ) * (0.5 - expected_rating E p q)),
           E.change_rating q (-((s.k_factor : ℝ) * (0.5 - expected_rating E p q)))) := by
  intro α E s p q
  exact ⟨rfl, rfl⟩

/-- Claim C3: expected-score formula.  The expected score the source computes
for the first participant is exactly `1 / (1 + 10^((Rb - Ra) / 400))` with the
fixed constants 400 and base 10, where `Ra`, `Rb` are the two current ratings
(floats modelled as reals). -/
theorem expected_formula_claim :
    ∀ (α : Type) (E : Elo α) (p q : α),
      expected_rating E p q = expected_score_spec (E.get_rating p) (E.get_rating q) := by
  intro α E p q
  rfl

/-- Claim C4: loss equals reversed win.  For every engine and every pair of
participants, `loss(x, y)` produces exactly the resulting ratings of
`win(y, x)`: the updated first argument of `loss` is the updated second
argument of `win` and vice versa; `loss` delegates to `win`. -/
theorem loss_is_reversed_win_claim :
    ∀ (α : Type) (E : Elo α) (s : EloRanking) (x y : α),
      (s.loss E x y).1 = (s.win E y x).2 ∧ (s.loss E x y).2 = (s.win E y x).1 := by
  intro α E s x y
  exact ⟨rfl, rfl⟩

/-- Claim C5: tie symmetry.  If the two ratings are equal, the expected score
is exactly 0.5, the computed delta is exactly zero, and `tie` returns both
ratings unchanged. -/
theorem tie_symmetry_claim (k : ℕ) (a b : ℝ) (h : a = b) :
    expected_rating RatingObject a b = 0.5
    ∧ (k : ℝ) * (0.5 - expected_rating RatingObject a b) = 0
    ∧ (EloRanking.new k).tie RatingObject a b = (a, b) := by
  subst h
  have he := expected_rating_self a
  refine ⟨he, by rw [he]; ring, ?_⟩
  simp only [EloRanking.new, EloRanking.tie, EloRanking.calculate_rating]
  rw [he]
  norm_num [RatingObject]

/-- Witness for C5 at K-factor 32 and both ratings 1400. -/
theorem tie_symmetry_witness :
    (1400 : ℝ) = 1400
    ∧ (expected_rating RatingObject (1400 : ℝ) 1400 = 0.5
       ∧ (32 : ℝ) * (0.5 - expected_rating RatingObject (1400 : ℝ) 1400) = 0
       ∧ (EloRanking.new 32).tie RatingObject (1400 : ℝ) 1400 = (1400, 1400)) := by
  refine ⟨rfl, ?_⟩
  simpa using tie_symmetry_claim 32 1400 1400 rfl

lemma abs_change_le (k : ℕ) (s e : ℝ) (h0 : 0 < e) (h1 : e < 1)
    (hs0 : 0 ≤ s) (hs1 : s ≤ 1) : |(k : ℝ) * (s - e)| ≤ k := by
  have hk : (0 : ℝ) ≤ k := Nat.cast_nonneg k
  rw [abs_le]
  constructor
  · nlinarith
  · nlinarith

/-- Claim C8: totality and bounded expected score.  All operations are total
functions of their inputs (they are plain functions in this model); for all
ratings the expected score lies strictly between 0 and 1, and the delta each
operation applies to either participant has magnitude at most the K-factor —
in particular it is finite, and zero when the K-factor is zero. -/
theorem totality_claim :
    ∀ (k : ℕ) (r1 r2 : ℝ),
      (0 < expected_rating RatingObject r1 r2 ∧ expected_rating RatingObject r1 r2 < 1)
      ∧ |((EloRanking.new k).win RatingObject r1 r2).1 - r1| ≤ k
      ∧ |((EloRanking.new k).win RatingObject r1 r2).2 - r2| ≤ k
      ∧ |((EloRanking.new k).tie RatingObject r1 r2).1 - r1| ≤ k
      ∧ |((EloRanking.new k).tie RatingObject r1 r2).2 - r2| ≤ k
      ∧ |((EloRanking.new k).loss RatingObject r1 r2).1 - r1| ≤ k
      ∧ |((EloRanking.new k).loss RatingObject r1 r2).2 - r2| ≤ k := by
  intro k r1 r2
  have h0 := expected_rating_pos RatingObject r1 r2
  have h1 := expected_rating_lt_one RatingObject r1 r2
  have h0r := expected_rating_pos RatingObject r2 r1
  have h1r := expected_rating_lt_one RatingObject r2 r1
  have hw := abs_change_le k 1 _ h0 h1 (by norm_num) le_rfl
  have ht := abs_change_le k 0.5 _ h0 h1 (by norm_num) (by norm_num)
  have hl := abs_change_le k 1 _ h0r h1r (by norm_num) le_rfl
  refine ⟨⟨h0, h1⟩, ?_, ?_, ?_, ?_, ?_, ?_⟩ <;>
    simp only [EloRanking.new, EloRanking.win, EloRanking.tie, EloRanking.loss,
      EloRanking.calculate_rating, RatingObject, add_sub_cancel_left, abs_neg] <;>
    assumption

/-- Claim C9: determinism.  The result of each outcome operation is a function
of the two input participants and the K-factor only: two engines with equal
K-factors send equal inputs to equal outputs, for every participant type. -/
theorem determinism_claim :
    ∀ (α : Type) (E : Elo α) (s1 s2 : EloRanking), s1.k_factor = s2.k_factor →
      ∀ (p q : α),
        s1.win E p q = s2.win E p q
        ∧ s1.tie E p q = s2.tie E p q
        ∧ s1.loss E p q = s2.loss E p q := by
  intro α E s1 s2 h p q
  obtain ⟨k1⟩ := s1
  obtain ⟨k2⟩ := s2
  cases h
  exact ⟨rfl, rfl, rfl⟩

/-- Witness for C9 at two engines both built with K-factor 32. -/
theorem determinism_witness :
    (EloRanking.new 32).k_factor = (EloRanking.new 32).k_factor
    ∧ ((EloRanking.new 32).win RatingObject (1400 : ℝ) 1200
         = (EloRanking.new 32).win RatingObject 1400 1200
       ∧ (EloRanking.new 32).tie RatingObject (1400 : ℝ) 1200
         = (EloRanking.new 32).tie RatingObject 1400 1200
       ∧ (EloRanking.new 32).loss RatingObject (1400 : ℝ) 1200
         = (EloRanking.new 32).loss RatingObject 1400 1200) :=
  ⟨rfl, determinism_claim ℝ RatingObject (EloRanking.new 32) (EloRanking.new 32) rfl 1400 1200⟩

/-- State-passing rendering of `win`: the state is the engine together with
the two participants.  The Rust receiver is `&self`, an immutable borrow, so
the engine component is returned unchanged and only the participants are
replaced by the mutated pair. -/
def EloRanking.winSt {α : Type} (E : Elo α) (st : EloRanking × α × α) :
    EloRanking × α × α :=
  (st.1, st.1.win E st.2.1 st.2.2)

/-- State-passing rendering of `tie`; see `EloRanking.winSt`. -/
def EloRanking.tieSt {α : Type} (E : Elo α) (st : EloRanking × α × α) :
    EloRanking × α × α :=
  (st.1, st.1.tie E st.2.1 st.2.2)

/-- State-passing rendering of `loss`; see `EloRanking.winSt`. -/
def EloRanking.lossSt {α : Type} (E : Elo α) (st : EloRanking × α × α) :
    EloRanking × α × α :=
  (st.1, st.1.loss E st.2.1 st.2.2)

/-- Claim C10: frame property.  Every outcome operation leaves the K-factor of
the engine unchanged (`get_k_factor` agrees before and after), and its whole
effect on the participants is exactly one `change_rating` call on each of the
two participants, with opposite deltas; nothing else in the state changes. -/
theorem frame_claim :
    ∀ (α : Type) (E : Elo α) (s : EloRanking) (p q : α),
      ((EloRanking.winSt E (s, p, q)).1.get_k_factor = s.get_k_factor
       ∧ (EloRanking.tieSt E (s, p, q)).1.get_k_factor = s.get_k_factor
       ∧ (EloRanking.lossSt E (s, p, q)).1.get_k_factor = s.get_k_factor)
      ∧ (∃ c : ℝ, EloRanking.winSt E (s, p, q)
          = (s, E.change_rating p c, E.change_rating q (-c)))
      ∧ (∃ c : ℝ, EloRanking.tieSt E (s, p, q)
          = (s, E.change_rating p c, E.change_rating q (-c)))
      ∧ (∃ c : ℝ, EloRanking.lossSt E (s, p, q)
          = (s, E.change_rating p c, E.change_rating q (-c))) := by
  intro α E s p q
  refine ⟨⟨rfl, rfl, rfl⟩, ⟨_, rfl⟩, ⟨_, rfl⟩, ?_⟩
  refine ⟨-((s.k_factor : ℝ) * (1 - expected_rating E q p)), ?_⟩
  simp only [EloRanking.lossSt, EloRanking.loss, EloRanking.win,
    EloRanking.calculate_rating, neg_neg]

lemma win_gain_eq (k : ℕ) (w l : ℝ) :
    ((EloRanking.new k).win RatingObject w l).1 - w
      = (k : ℝ) * (1 - 1 / (1 + (10 : ℝ) ^ ((l - w) / 400))) := by
  simp only [EloRanking.new, EloRanking.win, EloRanking.calculate_rating,
    expected_rating, RatingObject]
  ring

/-- Claim C7: monotonicity.  For every positive K-factor, the gain of the
winner of `win` strictly decreases as the rating gap in the winner favour
(winner rating minus loser rating) increases, and tends to zero as the
winner rating grows without bound against a fixed loser rating. -/
theorem monotonicity_claim (k : ℕ) (hk : 0 < k) :
    (∀ w1 l1 w2 l2 : ℝ, w1 - l1 < w2 - l2 →
      ((EloRanking.new k).win RatingObject w2 l2).1 - w2
        < ((EloRanking.new k).win RatingObject w1 l1).1 - w1)
    ∧ ∀ l : ℝ, Filter.Tendsto
        (fun w => ((EloRanking.new k).win RatingObject w l).1 - w)
        Filter.atTop (nhds 0) := by
  have hk0 : (0 : ℝ) < k := by exact_mod_cast hk
  constructor
  · intro w1 l1 w2 l2 h
    rw [win_gain_eq, win_gain_eq]
    have hy1 : 0 < (10 : ℝ) ^ ((l1 - w1) / 400) := rpow_ten_pos _
    have hy2 : 0 < (10 : ℝ) ^ ((l2 - w2) / 400) := rpow_ten_pos _
    have hylt : (10 : ℝ) ^ ((l2 - w2) / 400) < (10 : ℝ) ^ ((l1 - w1) / 400) :=
      (Real.rpow_lt_rpow_left_iff (by norm_num : (1 : ℝ) < 10)).mpr (by linarith)
    have hinv : 1 / (1 + (10 : ℝ) ^ ((l1 - w1) / 400))
        < 1 / (1 + (10 : ℝ) ^ ((l2 - w2) / 400)) :=
      one_div_lt_one_div_of_lt (by linarith) (by linarith)
    exact mul_lt_mul_of_pos_left (by linarith) hk0
  · intro l
    have h1 : Filter.Tendsto (fun w : ℝ => (l - w) / 400) Filter.atTop Filter.atBot := by
      have hneg : Filter.Tendsto (fun w : ℝ => l + -w) Filter.atTop Filter.atBot :=
        Filter.tendsto_atBot_add_const_left _ l Filter.tendsto_neg_atTop_atBot
      have := hneg.atBot_div_const (by norm_num : (0 : ℝ) < 400)
      simpa [sub_eq_add_neg] using this
    have h2 : Filter.Tendsto (fun w : ℝ => (10 : ℝ) ^ ((l - w) / 400))
        Filter.atTop (nhds 0) :=
      (tendsto_rpow_atBot_of_base_gt_one 10 (by norm_num)).comp h1
    have h3 : Filter.Tendsto (fun w : ℝ => 1 + (10 : ℝ) ^ ((l - w) / 400))
        Filter.atTop (nhds 1) := by
      have := Filter.Tendsto.add (tendsto_const_nhds (x := (1 : ℝ))) h2
      simpa using this
    have h4 : Filter.Tendsto (fun w : ℝ => 1 / (1 + (10 : ℝ) ^ ((l - w) / 400)))
        Filter.atTop (nhds 1) := by
      have := Filter.Tendsto.inv₀ h3 one_ne_zero
      simpa [one_div] using this
    have h5 : Filter.Tendsto
        (fun w : ℝ => (k : ℝ) * (1 - 1 / (1 + (10 : ℝ) ^ ((l - w) / 400))))
        Filter.atTop (nhds 0) := by
      have := Filter.Tendsto.const_mul (k : ℝ)
        (Filter.Tendsto.sub (tendsto_const_nhds (x := (1 : ℝ))) h4)
      simpa using this
    exact Filter.Tendsto.congr (fun w => (win_gain_eq k w l).symm) h5

/-- Witness for C7 at K-factor 32. -/
theorem monotonicity_witness :
    0 < 32
    ∧ ((∀ w1 l1 w2 l2 : ℝ, w1 - l1 < w2 - l2 →
        ((EloRanking.new 32).win RatingObject w2 l2).1 - w2
          < ((EloRanking.new 32).win RatingObject w1 l1).1 - w1)
       ∧ ∀ l : ℝ, Filter.Tendsto
          (fun w => ((EloRanking.new 32).win RatingObject w l).1 - w)
          Filter.atTop (nhds 0)) :=
  ⟨by decide, monotonicity_claim 32 (by decide)⟩

lemma ten_rpow_pow_25 : ((10 : ℝ) ^ ((2 : ℝ) / 25)) ^ (25 : ℕ) = 100 := by
  rw [← Real.rpow_natCast ((10 : ℝ) ^ ((2 : ℝ) / 25)) 25,
    ← Real.rpow_mul (by norm_num : (0 : ℝ) ≤ 10),
    show (2 : ℝ) / 25 * ((25 : ℕ) : ℝ) = ((2 : ℕ) : ℝ) by push_cast; ring,
    Real.rpow_natCast]
  norm_num

lemma ten_rpow_lb : (1.2022644 : ℝ) < (10 : ℝ) ^ ((2 : ℝ) / 25) := by
  have hxpos : (0 : ℝ) < (10 : ℝ) ^ ((2 : ℝ) / 25) := rpow_ten_pos _
  apply lt_of_pow_lt_pow_left₀ 25 (le_of_lt hxpos)
  rw [ten_rpow_pow_25]
  norm_num

lemma ten_rpow_ub : (10 : ℝ) ^ ((2 : ℝ) / 25) < 1.2022645 := by
  apply lt_of_pow_lt_pow_left₀ 25 (by norm_num : (0 : ℝ) ≤ 1.2022645)
  rw [ten_rpow_pow_25]
  norm_num

/-- Claim C6: the concrete scenario from the test, at K-factor 32 and both
participants starting at rating 1400.  The tie leaves both at 1400 and the
win yields exactly 1416 and 1384; these are exact even in the model.  The
subsequent loss from ratings (1416, 1384) involves `10 ^ 0.08`, so the model
pins the results to within `10⁻⁵` of the stated single-precision values
1398.5305 and 1401.4695. -/
theorem concrete_scenario_claim :
    (EloRanking.new 32).tie RatingObject (1400 : ℝ) 1400 = (1400, 1400)
    ∧ (EloRanking.new 32).win RatingObject (1400 : ℝ) 1400 = (1416, 1384)
    ∧ |((EloRanking.new 32).loss RatingObject (1416 : ℝ) 1384).1 - 1398.5305| < 1 / 100000
    ∧ |((EloRanking.new 32).loss RatingObject (1416 : ℝ) 1384).2 - 1401.4695| < 1 / 100000 := by
  have he := expected_rating_self (1400 : ℝ)
  refine ⟨?_, ?_, ?_, ?_⟩
  · simp only [EloRanking.new, EloRanking.tie, EloRanking.calculate_rating]
    rw [he]
    norm_num [RatingObject]
  · simp only [EloRanking.new, EloRanking.win, EloRanking.calculate_rating]
    rw [he]
    norm_num [RatingObject]
  all_goals
    simp only [EloRanking.new, EloRanking.loss, EloRanking.win,
      EloRanking.calculate_rating, expected_rating, RatingObject, Nat.cast_ofNat]
    rw [show ((1416 : ℝ) - 1384) / 400 = 2 / 25 by norm_num]
    have hxpos : (0 : ℝ) < (10 : ℝ) ^ ((2 : ℝ) / 25) := rpow_ten_pos _
    have hlb := ten_rpow_lb
    have hub := ten_rpow_ub
    have hu1 : (1 + (10 : ℝ) ^ ((2 : ℝ) / 25))⁻¹ < 0.4540781 := by
      rw [← one_div]
      calc 1 / (1 + (10 : ℝ) ^ ((2 : ℝ) / 25))
          < 1 / (1 + 1.2022644) := one_div_lt_one_div_of_lt (by norm_num) (by linarith)
        _ < 0.4540781 := by norm_num
    have hu2 : (0.4540780 : ℝ) < (1 + (10 : ℝ) ^ ((2 : ℝ) / 25))⁻¹ := by
      rw [← one_div]
      calc (0.4540780 : ℝ)
          < 1 / (1 + 1.2022645) := by norm_num
        _ < 1 / (1 + (10 : ℝ) ^ ((2 : ℝ) / 25)) :=
            one_div_lt_one_div_of_lt (by linarith) (by linarith)
    rw [abs_lt]
    simp only [one_div]
    constructor <;> linarith

end RustElo
